import Mathlib

/-!
# Shallow embedding of `library.py` (book-catalog manager)

The embedding models the record store (`Library` backed by a SQLite table
`books`) as a functional state: the list of persisted rows in storage order.
Mutating operations (`add_book`, `remove_book`, `clean`, `books_from_xml`)
are modelled run-style, returning the post state together with the outcome,
so that "the store is unchanged when the call raises" is directly statable.

Modelling conventions:
* Python strings are Lean `String`s; the comma join/split used for the
  `author` column is carried out on the underlying `List Char`, which is
  what Python's single-character `str.join` / `str.split` do.
* Python `float` values are modelled as `Rat`: the program performs no
  arithmetic on prices — they are parsed, stored and returned verbatim —
  so only the parse-or-fail behaviour and value identity matter.
* SQLite assigns the new row id `max(rowid) + 1` (no `AUTOINCREMENT`
  keyword is used in the schema), which `newId` reproduces.
* Exceptions are the constructors of `PyErr`; the SQLite `NOT NULL`
  violation that a `None` title/category would produce at commit time is
  `PyErr.integrityError`.
-/

/-- The exceptions the program can raise, one constructor per Python
exception class reachable from the modelled code. -/
inductive PyErr where
  | bookNotFound
  | duplicatedTitle
  | wrongXmlPath
  | xmlParseError
  | osError
  | keyError (k : String)
  | valueError
  | typeError
  | integrityError
  deriving DecidableEq, Repr

/-- One persisted row of the `books` table (class `Book`): `author` is the
comma-joined authors string actually stored in the column. -/
structure Book where
  id : Nat
  category : String
  title : String
  author : String
  year : Int
  price : Rat
  language : Option String
  cover : Option String
  deriving DecidableEq, Repr

/-- The persistent store: the rows of the `books` table in storage order. -/
structure LibState where
  books : List Book
  deriving DecidableEq, Repr

/-- The decoded view of a row returned by `get_all_books` (one dict of the
returned list): `authors` is the stored string split back on commas. -/
structure BookView where
  title : String
  year : Int
  category : String
  authors : List String
  price : Rat
  language : Option String
  cover : Option String
  deriving DecidableEq, Repr

/-- `','.join` at the character level: interleave the separator between the
words (`str.join` of a list of strings). -/
def joinChar (c : Char) : List (List Char) → List Char
  | [] => []
  | [w] => w
  | w :: ws => w ++ c :: joinChar c ws

/-- `str.split(sep)` for a one-character separator, at the character level:
maximal split, so the result always has one more word than separators (and
splitting the empty string yields `[[]]`, i.e. `''.split(',') == ['']`). -/
def splitChar (c : Char) : List Char → List (List Char)
  | [] => [[]]
  | x :: xs =>
    match splitChar c xs with
    | [] => [[]]
    | w :: ws => if x = c then [] :: w :: ws else (x :: w) :: ws

/-- `Library._form_author`: `','.join(authors)`. -/
def form_author (authors : List String) : String :=
  String.mk (joinChar ',' (authors.map String.data))

/-- `Library._form_authors`: `author.split(',')`. -/
def form_authors (author : String) : List String :=
  (splitChar ',' author.data).map String.mk

/-- `Library.check_book_exist`: `session.query(Book).filter_by(title=title).first()`
is truthy iff some stored row has exactly that title (SQLite `=` on `TEXT`
is case-sensitive binary comparison). -/
def check_book_exist (st : LibState) (title : String) : Bool :=
  st.books.any (fun b => b.title = title)

/-- The rowid SQLite assigns to a fresh row: `max(rowid) + 1`. -/
def newId (st : LibState) : Nat :=
  (st.books.foldl (fun m b => max m b.id) 0) + 1

/-- The row `Book(category=..., title=..., author=self._form_author(authors), ...)`
as persisted by a successful `add_book`. -/
def mkBook (st : LibState) (category title : String) (authors : List String)
    (year : Int) (price : Rat) (language cover : Option String) : Book :=
  { id := newId st, category := category, title := title,
    author := form_author authors, year := year, price := price,
    language := language, cover := cover }

/-- `Library.add_book`: raise `DuplicatedBookTitleError` when a row with the
title exists (leaving the store untouched), otherwise insert one new row and
return its id. -/
def add_book (st : LibState) (category title : String) (authors : List String)
    (year : Int) (price : Rat) (language cover : Option String) :
    LibState × Except PyErr Nat :=
  if check_book_exist st title then
    (st, .error .duplicatedTitle)
  else
    (⟨st.books ++ [mkBook st category title authors year price language cover]⟩,
      .ok (newId st))

/-- `Library.remove_book`: delete the first row with the given title, or
raise `BookNotFoundError` when there is none. -/
def remove_book (st : LibState) (name : String) : LibState × Option PyErr :=
  if st.books.any (fun b => b.title = name) then
    (⟨st.books.eraseP (fun b => b.title = name)⟩, none)
  else
    (st, some .bookNotFound)

/-- `Library.get_all_books`: every row in storage order, with the stored
`author` string split back into the `authors` list. -/
def get_all_books (st : LibState) : List BookView :=
  st.books.map (fun b =>
    { title := b.title, year := b.year, category := b.category,
      authors := form_authors b.author, price := b.price,
      language := b.language, cover := b.cover })

/-- `Library.clean`: delete every row. -/
def clean (_st : LibState) : LibState :=
  ⟨[]⟩

/-!
## The XML importer (`Library.books_from_xml`)

The candidate built from one top-level XML element is a Python dict mapping
field names to values; a value is either a string-or-`None` (attribute
values are always strings, element texts may be `None`) or the collected
authors list.
-/

/-- A value stored in a candidate dict: either a string / `None` (`str`,
covering attribute values and element texts) or a list of author texts. -/
inductive Val where
  | str (v : Option String)
  | lst (v : List (Option String))
  deriving DecidableEq, Repr

/-- A Python dict keyed by strings, in insertion order with unique keys
(every dict here is built from `[]` by `dset`/`dupdate`). -/
abbrev Dict := List (String × Val)

/-- `d[k] = v`: replace the value of an existing key in place, else append
the new binding. -/
def dset : Dict → String → Val → Dict
  | [], k, v => [(k, v)]
  | (k', v') :: d, k, v =>
    if k' = k then (k, v) :: d else (k', v') :: dset d k v

/-- `d.get(k)` / `d[k]` lookup. -/
def dget : Dict → String → Option Val
  | [], _ => none
  | (k', v') :: d, k => if k' = k then some v' else dget d k

/-- `d.update(attrib)`: assign each attribute pair in document order, with
attribute values entering as strings. -/
def dupdate (d : Dict) (kvs : List (String × String)) : Dict :=
  kvs.foldl (fun d kv => dset d kv.1 (.str (some kv.2))) d

/-- A nested child element of a book element, as the importer reads it:
tag, attributes in document order, and text content (`None` for an empty
element). Deeper nesting is never inspected by the code. -/
structure XmlSub where
  tag : String
  attrib : List (String × String)
  text : Option String
  deriving DecidableEq, Repr

/-- One top-level child of the XML root: one candidate book. -/
structure XmlBookElem where
  tag : String
  attrib : List (String × String)
  children : List XmlSub
  deriving DecidableEq, Repr

/-- The parsed XML document root; only its direct children are read. -/
structure XmlRoot where
  children : List XmlBookElem
  deriving DecidableEq, Repr

/-- The body of the `for subchild in child` loop (lines 68–74): an `author`
tag appends its text to the authors list, any other tag assigns the text
under the tag name; afterwards the subchild's own attributes are merged in. -/
def procSubs (record : Dict) (authors : List (Option String)) :
    List XmlSub → Dict × List (Option String)
  | [] => (record, authors)
  | sc :: scs =>
    let record1 := if sc.tag = "author" then record
                   else dset record sc.tag (.str sc.text)
    let authors1 := if sc.tag = "author" then authors ++ [sc.text] else authors
    let record2 := if sc.attrib.isEmpty then record1 else dupdate record1 sc.attrib
    procSubs record2 authors1 scs

/-- The candidate dict built for one top-level child (lines 64–76): seed
from the element's attributes, process the nested children, then store the
collected authors list under `authors`. -/
def candidate (child : XmlBookElem) : Dict :=
  let record : Dict := if child.attrib.isEmpty then [] else dupdate [] child.attrib
  let ra := procSubs record [] child.children
  dset ra.1 "authors" (.lst ra.2)

/-!
## Python `int(...)` and `float(...)` on strings

`int(record['year'])` and `float(record['price'])` raise `ValueError` on a
malformed string and `TypeError` when the value is not a string at all
(e.g. `None` text of an empty element). The numeral grammar is modelled
faithfully for finite decimal forms, including Python's underscore rule
(an underscore only between digits); `float` specials (`inf`, `nan`) are
outside the modelled domain, and no claim involves them.
-/

/-- Accept a digit run with underscores only between digits, accumulating
its value; `afterDigit` records whether the previous character was a digit. -/
def digitsRun : List Char → Bool → Nat → Option Nat
  | [], afterDigit, acc => if afterDigit then some acc else none
  | ch :: cs, afterDigit, acc =>
    if ch.isDigit then digitsRun cs true (acc * 10 + (ch.toNat - 48))
    else if ch = '_' ∧ afterDigit then digitsRun cs false acc
    else none

/-- Like `digitsRun` but also counts the digits (for fraction length);
an empty run is accepted with count 0 — callers enforce non-emptiness. -/
def digitsRunCount : List Char → Bool → Nat → Nat → Option (Nat × Nat)
  | [], afterDigit, acc, cnt =>
    if cnt = 0 ∨ afterDigit then some (acc, cnt) else none
  | ch :: cs, afterDigit, acc, cnt =>
    if ch.isDigit then digitsRunCount cs true (acc * 10 + (ch.toNat - 48)) (cnt + 1)
    else if ch = '_' ∧ afterDigit then digitsRunCount cs false acc cnt
    else none

/-- Strip leading and trailing whitespace, as `int`/`float` do. -/
def stripWs (l : List Char) : List Char :=
  ((l.dropWhile Char.isWhitespace).reverse.dropWhile Char.isWhitespace).reverse

/-- Split off an optional leading sign; `true` means negative. -/
def takeSign : List Char → Bool × List Char
  | '+' :: rest => (false, rest)
  | '-' :: rest => (true, rest)
  | l => (false, l)

/-- `int(s)` for a string argument: optional surrounding whitespace, an
optional sign, then a non-empty base-10 digit run. -/
def parseIntStr (s : String) : Option Int :=
  let sl := takeSign (stripWs s.data)
  (digitsRun sl.2 false 0).map (fun n => if sl.1 then -(n : Int) else (n : Int))

/-- Split a list at the first occurrence of either marker character,
returning the part before and (when found) the part after. -/
def splitAtChar2 (a b : Char) : List Char → List Char × Option (List Char)
  | [] => ([], none)
  | x :: xs =>
    if x = a ∨ x = b then ([], some xs)
    else
      let r := splitAtChar2 a b xs
      (x :: r.1, r.2)

/-- The mantissa of a float literal: `digits [. digits?] | [digits] . digits`,
valued as a rational. -/
def parseMantissa (l : List Char) : Option Rat :=
  let sp := splitAtChar2 '.' '.' l
  match sp.2 with
  | none => (digitsRun l false 0).map (fun n => (n : Rat))
  | some fracPart =>
    match digitsRunCount sp.1 false 0 0, digitsRunCount fracPart false 0 0 with
    | some (ip, ic), some (fp, fc) =>
      if ic = 0 ∧ fc = 0 then none
      else some ((ip : Rat) + (fp : Rat) / ((10 : Rat) ^ fc))
    | _, _ => none

/-- `float(s)` for a string argument, on finite decimal literals: optional
whitespace and sign, a mantissa, and an optional `e`/`E` exponent. -/
def parseFloatStr (s : String) : Option Rat :=
  let sl := takeSign (stripWs s.data)
  let me := splitAtChar2 'e' 'E' sl.2
  let mant := parseMantissa me.1
  let scaled :=
    match me.2 with
    | none => mant
    | some expPart =>
      let esl := takeSign expPart
      match mant, digitsRun esl.2 false 0 with
      | some m, some e =>
        some (if esl.1 then m / ((10 : Rat) ^ e) else m * ((10 : Rat) ^ e))
      | _, _ => none
  scaled.map (fun q => if sl.1 then -q else q)

/-- `int(v)` for a candidate value: `TypeError` unless `v` is a string,
`ValueError` when the string is not an integer literal. -/
def pyInt : Val → Except PyErr Int
  | .str (some s) =>
    match parseIntStr s with
    | some n => .ok n
    | none => .error .valueError
  | .str none => .error .typeError
  | .lst _ => .error .typeError

/-- `float(v)` for a candidate value: `TypeError` unless `v` is a string,
`ValueError` when the string is not a float literal. -/
def pyFloat : Val → Except PyErr Rat
  | .str (some s) =>
    match parseFloatStr s with
    | some q => .ok q
    | none => .error .valueError
  | .str none => .error .typeError
  | .lst _ => .error .typeError

/-- `record[k]`: `KeyError` when the key is absent. -/
def getItem (d : Dict) (k : String) : Except PyErr Val :=
  match dget d k with
  | some v => .ok v
  | none => .error (.keyError k)

/-- The truthiness test `filter_by(title=title).first()` performed with a
raw candidate value: a non-string title (`None` becomes SQL `IS NULL`)
matches no stored row, whose titles are all non-null strings. -/
def rawTitleExists (st : LibState) : Val → Bool
  | .str (some t) => check_book_exist st t
  | _ => false

/-- Collect a list of optional strings when no entry is `None`. -/
def allSome : List (Option String) → Option (List String)
  | [] => some []
  | some a :: rest => (allSome rest).map (a :: ·)
  | none :: _ => none

/-- `','.join(v)` on a raw candidate value: joining a list containing
`None` (an empty `<author/>` element) or joining `None` itself raises
`TypeError`; joining a string joins its characters. -/
def joinRaw : Val → Except PyErr String
  | .lst l =>
    match allSome l with
    | some as => .ok (form_author as)
    | none => .error .typeError
  | .str (some s) => .ok (form_author (s.data.map (fun ch => String.mk [ch])))
  | .str none => .error .typeError

/-- Bind an optional raw value into a nullable `TEXT` column: absent and
`None` both store SQL `NULL`; a list cannot be bound. -/
def bindOptStr : Option Val → Except PyErr (Option String)
  | none => .ok none
  | some (.str o) => .ok o
  | some (.lst _) => .error .typeError

/-- `Library.add_book` as reached from the importer with raw (dynamically
typed) candidate values: the duplicate check runs first; the authors join
happens while building the `Book` row; a `None` title or category then
fails the `NOT NULL` constraint at commit. On the string-typed values the
Python annotations promise, this agrees with `add_book`
(`add_book_raw_typed`). -/
def add_book_raw (st : LibState) (vcategory vtitle vauthors : Val)
    (year : Int) (price : Rat) (vlanguage vcover : Option Val) :
    LibState × Except PyErr Nat :=
  if rawTitleExists st vtitle then (st, .error .duplicatedTitle)
  else
    match joinRaw vauthors with
    | .error e => (st, .error e)
    | .ok author =>
      match vcategory, vtitle, bindOptStr vlanguage, bindOptStr vcover with
      | .str (some category), .str (some title), .ok language, .ok cover =>
        let b : Book := { id := newId st, category := category, title := title,
                          author := author, year := year, price := price,
                          language := language, cover := cover }
        (⟨st.books ++ [b]⟩, .ok (newId st))
      | _, _, _, _ => (st, .error .integrityError)

/-- The argument evaluation of line 79–80, in Python's left-to-right
order: `record['category']`, `record['title']`, `record['authors']`,
`int(record['year'])`, `float(record['price'])`, then the two
`record.get(...)` calls, which cannot fail. -/
def importArgs (record : Dict) :
    Except PyErr (Val × Val × Val × Int × Rat × Option Val × Option Val) := do
  let vcategory ← getItem record "category"
  let vtitle ← getItem record "title"
  let vauthors ← getItem record "authors"
  let year ← pyInt (← getItem record "year")
  let price ← pyFloat (← getItem record "price")
  .ok (vcategory, vtitle, vauthors, year, price,
    dget record "language", dget record "cover")

/-- Submit one candidate: evaluate the arguments, then call `add_book`. -/
def importRecord (st : LibState) (record : Dict) : LibState × Option PyErr :=
  match importArgs record with
  | .error e => (st, some e)
  | .ok (vcategory, vtitle, vauthors, year, price, vlanguage, vcover) =>
    let r := add_book_raw st vcategory vtitle vauthors year price vlanguage vcover
    match r.2 with
    | .ok _ => (r.1, none)
    | .error e => (r.1, some e)

/-- The `for record in records` loop of lines 78–80: submit the candidates
in document order, stopping at the first exception, which propagates out of
`books_from_xml` while the records already committed stay in the store. -/
def importRecords (st : LibState) : List Dict → LibState × Option PyErr
  | [] => (st, none)
  | r :: rs =>
    match importRecord st r with
    | (st', none) => importRecords st' rs
    | (st', some e) => (st', some e)

/-- The outcome of `open(path_to_xml)` followed by `ElementTree.XML`: the
environment either yields a parsed document or one of the failure modes.
Only `FileNotFoundError` is caught by the code (line 57); any other
`OSError` from `open`, and a `ParseError` from the XML parse, propagate
unwrapped. -/
inductive OpenResult where
  | notFound
  | osError
  | badXml
  | found (root : XmlRoot)
  deriving DecidableEq, Repr

/-- `Library.books_from_xml`: wrap a missing file as `WrongXmlPathError`,
let other failures propagate, then build all candidates and submit them. -/
def books_from_xml (st : LibState) (file : OpenResult) : LibState × Option PyErr :=
  match file with
  | .notFound => (st, some .wrongXmlPath)
  | .osError => (st, some .osError)
  | .badXml => (st, some .xmlParseError)
  | .found root => importRecords st (root.children.map candidate)


/-!
## Basic facts about the store operations
-/

lemma check_book_exist_iff (st : LibState) (t : String) :
    check_book_exist st t = true ↔ ∃ b ∈ st.books, b.title = t := by
  simp [check_book_exist]

lemma check_book_exist_eq_false_iff (st : LibState) (t : String) :
    check_book_exist st t = false ↔ ∀ b ∈ st.books, b.title ≠ t := by
  simp [check_book_exist]

lemma allSome_map_some (l : List String) : allSome (l.map some) = some l := by
  induction l with
  | nil => rfl
  | cons a rest ih => simp [allSome, ih]

/-- Consistency of the raw (dynamically typed) `add_book` with the typed
one: on arguments of the types the Python annotations promise, both model
the same source function and agree. -/
lemma add_book_raw_typed (st : LibState) (c t : String) (auths : List String)
    (y : Int) (p : Rat) (lg cv : Option String) (vl vc : Option Val)
    (hl : bindOptStr vl = .ok lg) (hc : bindOptStr vc = .ok cv) :
    add_book_raw st (.str (some c)) (.str (some t)) (.lst (auths.map some))
      y p vl vc = add_book st c t auths y p lg cv := by
  simp only [add_book_raw, add_book, rawTitleExists, joinRaw, allSome_map_some,
    hl, hc, mkBook]

/-!
## C1, C7, C8, C9, C10 — the store operations
-/

/-- C1: `add_book` raises `DuplicatedTitle` iff a stored record already
has exactly the same title (case-sensitive); when it raises, the store is
returned unchanged (so the first record with that title remains stored
exactly as it was), and when it does not raise, the post store is the old
one with exactly one new record appended. -/
theorem add_book_duplicate_spec (st : LibState) (c t : String)
    (auths : List String) (y : Int) (p : Rat) (lg cv : Option String) :
    ((add_book st c t auths y p lg cv).2 = .error .duplicatedTitle ↔
      ∃ b ∈ st.books, b.title = t)
    ∧ ((∃ b ∈ st.books, b.title = t) →
        add_book st c t auths y p lg cv = (st, .error .duplicatedTitle))
    ∧ ((¬ ∃ b ∈ st.books, b.title = t) →
        add_book st c t auths y p lg cv =
          (⟨st.books ++ [mkBook st c t auths y p lg cv]⟩, .ok (newId st))) := by
  by_cases h : ∃ b ∈ st.books, b.title = t
  · have hb : check_book_exist st t = true := (check_book_exist_iff st t).mpr h
    simp [add_book, hb, h]
  · have hb : check_book_exist st t = false := by
      simpa [check_book_exist_eq_false_iff] using h
    simp [add_book, hb, h]

/-- Closed instance of `add_book_duplicate_spec` at a concrete store. -/
theorem add_book_duplicate_spec_witness :
    ((add_book ⟨[⟨1, "f", "Dune", "Herbert", 1965, 3, none, none⟩]⟩
        "f" "Dune" ["Other"] 1965 3 none none).2 = .error .duplicatedTitle ↔
      ∃ b ∈ [(⟨1, "f", "Dune", "Herbert", 1965, 3, none, none⟩ : Book)],
        b.title = "Dune")
    ∧ ((∃ b ∈ [(⟨1, "f", "Dune", "Herbert", 1965, 3, none, none⟩ : Book)],
          b.title = "Dune") →
        add_book ⟨[⟨1, "f", "Dune", "Herbert", 1965, 3, none, none⟩]⟩
          "f" "Dune" ["Other"] 1965 3 none none =
        (⟨[⟨1, "f", "Dune", "Herbert", 1965, 3, none, none⟩]⟩,
          .error .duplicatedTitle))
    ∧ ((¬ ∃ b ∈ [(⟨1, "f", "Dune", "Herbert", 1965, 3, none, none⟩ : Book)],
          b.title = "Dune") →
        add_book ⟨[⟨1, "f", "Dune", "Herbert", 1965, 3, none, none⟩]⟩
          "f" "Dune" ["Other"] 1965 3 none none =
        (⟨[⟨1, "f", "Dune", "Herbert", 1965, 3, none, none⟩] ++
            [mkBook ⟨[⟨1, "f", "Dune", "Herbert", 1965, 3, none, none⟩]⟩
              "f" "Dune" ["Other"] 1965 3 none none]⟩,
          .ok (newId ⟨[⟨1, "f", "Dune", "Herbert", 1965, 3, none, none⟩]⟩))) :=
  add_book_duplicate_spec ⟨[⟨1, "f", "Dune", "Herbert", 1965, 3, none, none⟩]⟩
    "f" "Dune" ["Other"] 1965 3 none none

/-- C7: removing a title that no stored record has fails with `NotFound`
and leaves the store unchanged; in particular `get_all_books` returns the
same sequence before and after the failed call. -/
theorem remove_book_missing_title (st : LibState) (name : String)
    (h : ∀ b ∈ st.books, b.title ≠ name) :
    remove_book st name = (st, some .bookNotFound)
    ∧ get_all_books (remove_book st name).1 = get_all_books st := by
  have hb : st.books.any (fun b => b.title = name) = false := by
    simp only [List.any_eq_false, decide_eq_true_eq]
    exact h
  simp [remove_book, hb]

/-- Closed instance of `remove_book_missing_title`. -/
theorem remove_book_missing_title_witness :
    (∀ b ∈ [(⟨1, "f", "Dune", "Herbert", 1965, 3, none, none⟩ : Book)],
      b.title ≠ "Hamlet")
    ∧ remove_book ⟨[⟨1, "f", "Dune", "Herbert", 1965, 3, none, none⟩]⟩ "Hamlet" =
        (⟨[⟨1, "f", "Dune", "Herbert", 1965, 3, none, none⟩]⟩, some .bookNotFound)
    ∧ get_all_books (remove_book
        ⟨[⟨1, "f", "Dune", "Herbert", 1965, 3, none, none⟩]⟩ "Hamlet").1 =
      get_all_books ⟨[⟨1, "f", "Dune", "Herbert", 1965, 3, none, none⟩]⟩ :=
  ⟨by decide, remove_book_missing_title _ "Hamlet" (by decide)⟩

lemma eraseP_eq_filter_not {α : Type} (p : α → Bool) :
    ∀ l : List α, l.countP p ≤ 1 → l.eraseP p = l.filter (fun a => !(p a))
  | [], _ => rfl
  | a :: l, hle => by
    rw [List.countP_cons] at hle
    by_cases pa : p a = true
    · rw [pa] at hle
      simp only [if_true] at hle
      have hz : l.countP p = 0 := by omega
      have hl : l.filter (fun a => !(p a)) = l :=
        List.filter_eq_self.mpr (fun x hx => by
          have hx0 : p x = false := by
            simpa using List.countP_eq_zero.mp hz x hx
          simp [hx0])
      simp [List.eraseP_cons, List.filter_cons, pa, hl]
    · have pb : p a = false := by simpa using pa
      simp only [pb] at hle
      simp only [Bool.false_eq_true, if_false, Nat.add_zero] at hle
      simp [List.eraseP_cons, List.filter_cons, pb,
        eraseP_eq_filter_not p l hle]

lemma countP_title_le_one_of_nodup (name : String) :
    ∀ l : List Book, (l.map Book.title).Nodup →
      l.countP (fun b => b.title = name) ≤ 1
  | [], _ => by simp
  | b :: rest, hnd => by
    rw [List.map_cons, List.nodup_cons] at hnd
    rw [List.countP_cons]
    by_cases hb : b.title = name
    · have hz : rest.countP (fun b => decide (b.title = name)) = 0 :=
        List.countP_eq_zero.mpr (fun a ha => by
          simp only [decide_eq_true_eq]
          intro hcon
          have hmem : a.title ∈ rest.map Book.title :=
            List.mem_map_of_mem Book.title ha
          rw [hcon, ← hb] at hmem
          exact hnd.1 hmem)
      simp [hz, hb]
    · have ih := countP_title_le_one_of_nodup name rest hnd.2
      have hb2 : decide (b.title = name) = false := by simpa using hb
      rw [hb2]
      simpa using ih

/-- C8: when some stored record has the given title and titles are unique
(the store invariant), `remove_book` succeeds and the resulting store is
the old one with exactly the records of that title removed — every other
record is unchanged, still present, and in its old order. -/
theorem remove_book_present_title (st : LibState) (name : String)
    (huniq : (st.books.map Book.title).Nodup)
    (h : ∃ b ∈ st.books, b.title = name) :
    (remove_book st name).2 = none
    ∧ (remove_book st name).1.books = st.books.filter (fun b => b.title ≠ name) := by
  have hb : st.books.any (fun b => b.title = name) = true := by
    simpa [List.any_eq_true] using h
  have herase := eraseP_eq_filter_not (fun b => decide (b.title = name))
    st.books (countP_title_le_one_of_nodup name st.books huniq)
  simp [remove_book, hb, herase, decide_not]

/-- Closed instance of `remove_book_present_title` on a two-record store. -/
theorem remove_book_present_title_witness :
    (([(⟨1, "f", "Dune", "Herbert", 1965, 3, none, none⟩ : Book),
       ⟨2, "d", "Hamlet", "Shakespeare", 1603, 4, none, none⟩].map Book.title).Nodup
    ∧ ∃ b ∈ [(⟨1, "f", "Dune", "Herbert", 1965, 3, none, none⟩ : Book),
       ⟨2, "d", "Hamlet", "Shakespeare", 1603, 4, none, none⟩], b.title = "Dune")
    ∧ (remove_book ⟨[⟨1, "f", "Dune", "Herbert", 1965, 3, none, none⟩,
        ⟨2, "d", "Hamlet", "Shakespeare", 1603, 4, none, none⟩]⟩ "Dune").2 = none
    ∧ (remove_book ⟨[⟨1, "f", "Dune", "Herbert", 1965, 3, none, none⟩,
        ⟨2, "d", "Hamlet", "Shakespeare", 1603, 4, none, none⟩]⟩ "Dune").1.books =
      [⟨1, "f", "Dune", "Herbert", 1965, 3, none, none⟩,
       ⟨2, "d", "Hamlet", "Shakespeare", 1603, 4, none, none⟩].filter
        (fun b => b.title ≠ "Dune") :=
  ⟨⟨by decide, by decide⟩,
    remove_book_present_title ⟨[⟨1, "f", "Dune", "Herbert", 1965, 3, none, none⟩,
      ⟨2, "d", "Hamlet", "Shakespeare", 1603, 4, none, none⟩]⟩ "Dune"
      (by decide) (by decide)⟩

/-- C9: `clean` empties the store (`get_all_books` afterwards is the empty
sequence), has no error outcome (its type has no error channel, matching
the code, which can raise nothing), is idempotent, and is a no-op on the
empty store. -/
theorem clean_spec (st : LibState) :
    get_all_books (clean st) = [] ∧ clean (clean st) = clean st
    ∧ clean ⟨[]⟩ = ⟨[]⟩ := by
  exact ⟨rfl, rfl, rfl⟩

lemma form_authors_empty : form_authors (form_author []) = [""] := rfl

/-- C10: `add_book` performs no non-emptiness check on `authors`: with an
empty authors list and a fresh title it succeeds, and the persisted record
decodes on `get_all_books` to the one-element authors list `[""]` — not to
the empty list that was supplied (`''.split(',') == ['']`). -/
theorem add_book_empty_authors (st : LibState) (c t : String) (y : Int)
    (p : Rat) (lg cv : Option String) (h : check_book_exist st t = false) :
    (add_book st c t [] y p lg cv).2 = .ok (newId st)
    ∧ get_all_books (add_book st c t [] y p lg cv).1 =
        get_all_books st ++ [⟨t, y, c, [""], p, lg, cv⟩] := by
  simp [add_book, h, get_all_books, mkBook, form_authors_empty]

/-- Closed instance of `add_book_empty_authors` on the empty store. -/
theorem add_book_empty_authors_witness :
    check_book_exist ⟨[]⟩ "Dune" = false
    ∧ (add_book ⟨[]⟩ "f" "Dune" [] 1965 3 none none).2 = .ok (newId ⟨[]⟩)
    ∧ get_all_books (add_book ⟨[]⟩ "f" "Dune" [] 1965 3 none none).1 =
        get_all_books ⟨[]⟩ ++ [⟨"Dune", 1965, "f", [""], 3, none, none⟩] :=
  ⟨by decide, add_book_empty_authors ⟨[]⟩ "f" "Dune" 1965 3 none none (by decide)⟩

/-!
## C2 — create/list round-trip
-/

lemma splitChar_ne_nil (c : Char) (l : List Char) : splitChar c l ≠ [] := by
  induction l with
  | nil => simp [splitChar]
  | cons x xs ih =>
    simp only [splitChar]
    cases h : splitChar c xs with
    | nil => exact absurd h ih
    | cons w ws =>
      show (if x = c then [] :: w :: ws else (x :: w) :: ws) ≠ []
      split <;> simp

lemma splitChar_no_sep (c : Char) (w : List Char) (h : c ∉ w) :
    splitChar c w = [w] := by
  induction w with
  | nil => rfl
  | cons x xs ih =>
    have hx : x ≠ c := fun he => h (he ▸ List.mem_cons_self x xs)
    have hxs : c ∉ xs := fun hm => h (List.mem_cons_of_mem x hm)
    simp only [splitChar, ih hxs]
    simp [hx]

lemma splitChar_sep_append (c : Char) (w r : List Char) (h : c ∉ w) :
    splitChar c (w ++ c :: r) = w :: splitChar c r := by
  induction w with
  | nil =>
    simp only [List.nil_append, splitChar]
    cases h2 : splitChar c r with
    | nil => exact absurd h2 (splitChar_ne_nil c r)
    | cons w2 ws => simp
  | cons x xs ih =>
    have hx : x ≠ c := fun he => h (he ▸ List.mem_cons_self x xs)
    have hxs : c ∉ xs := fun hm => h (List.mem_cons_of_mem x hm)
    simp only [List.cons_append, splitChar, List.append_eq]
    rw [ih hxs]
    simp [hx]

lemma splitChar_joinChar (c : Char) :
    ∀ l : List (List Char), l ≠ [] → (∀ w ∈ l, c ∉ w) →
      splitChar c (joinChar c l) = l
  | [], h, _ => absurd rfl h
  | [w], _, hc => by
    simp only [joinChar]
    exact splitChar_no_sep c w (hc w (by simp))
  | w :: w2 :: ws, _, hc => by
    show splitChar c (w ++ c :: joinChar c (w2 :: ws)) = w :: w2 :: ws
    rw [splitChar_sep_append c w _ (hc w (by simp))]
    rw [splitChar_joinChar c (w2 :: ws) (by simp)
      (fun x hx => hc x (List.mem_cons_of_mem w hx))]

/-- Authors round-trip: joining on commas and splitting back is lossless
for a non-empty list of comma-free author names. -/
lemma form_authors_form_author (auths : List String) (hne : auths ≠ [])
    (hc : ∀ a ∈ auths, ',' ∉ a.data) :
    form_authors (form_author auths) = auths := by
  unfold form_authors form_author
  rw [show (String.mk (joinChar ',' (auths.map String.data))).data =
        joinChar ',' (auths.map String.data) from rfl]
  rw [splitChar_joinChar ',' (auths.map String.data) (by simpa using hne)
    (fun w hw => by
      rcases List.mem_map.mp hw with ⟨a, ha, rfl⟩
      exact hc a ha)]
  rw [List.map_map]
  show auths.map id = auths
  exact List.map_id auths

/-- C2: for valid inputs (non-empty title/category, non-empty authors with
no comma in any name, any year/price/optional language and cover) and a
store in which the title is fresh, `add_book` followed by `get_all_books`
yields exactly one record whose decoded fields equal the inputs; in
particular the stored comma-joined authors string splits back into the
original authors list. -/
theorem create_then_list_roundtrip (st : LibState) (c t : String)
    (auths : List String) (y : Int) (p : Rat) (lg cv : Option String)
    (htne : t ≠ "") (hcne : c ≠ "") (hane : auths ≠ [])
    (hcomma : ∀ a ∈ auths, ',' ∉ a.data)
    (hfresh : ∀ b ∈ st.books, b.title ≠ t) :
    (get_all_books (add_book st c t auths y p lg cv).1).countP
      (fun v => v = ⟨t, y, c, auths, p, lg, cv⟩) = 1 := by
  have hb : check_book_exist st t = false :=
    (check_book_exist_eq_false_iff st t).mpr hfresh
  have h0 : (get_all_books st).countP
      (fun v => v = (⟨t, y, c, auths, p, lg, cv⟩ : BookView)) = 0 := by
    apply List.countP_eq_zero.mpr
    intro v hv
    rcases List.mem_map.mp hv with ⟨b, hbmem, rfl⟩
    simp only [decide_eq_true_eq]
    intro hcon
    exact hfresh b hbmem (congrArg BookView.title hcon)
  rw [show add_book st c t auths y p lg cv =
    (⟨st.books ++ [mkBook st c t auths y p lg cv]⟩, .ok (newId st)) from by
      simp [add_book, hb]]
  have hga : get_all_books ⟨st.books ++ [mkBook st c t auths y p lg cv]⟩ =
      get_all_books st ++
        [⟨t, y, c, form_authors (form_author auths), p, lg, cv⟩] := by
    simp [get_all_books, mkBook]
  rw [hga, form_authors_form_author auths hane hcomma, List.countP_append, h0]
  simp

/-- Closed instance of `create_then_list_roundtrip` on the empty store. -/
theorem create_then_list_roundtrip_witness :
    (("Dune" : String) ≠ "" ∧ ("f" : String) ≠ ""
      ∧ (["Frank", "Herbert"] : List String) ≠ []
      ∧ (∀ a ∈ (["Frank", "Herbert"] : List String), ',' ∉ a.data)
      ∧ (∀ b ∈ (⟨[]⟩ : LibState).books, b.title ≠ "Dune"))
    ∧ (get_all_books
        (add_book ⟨[]⟩ "f" "Dune" ["Frank", "Herbert"] 1965 3 none
          (some "hard")).1).countP
        (fun v => v = ⟨"Dune", 1965, "f", ["Frank", "Herbert"], 3, none,
          some "hard"⟩) = 1 :=
  ⟨⟨by decide, by decide, by decide, by decide, by decide⟩,
    create_then_list_roundtrip ⟨[]⟩ "f" "Dune" ["Frank", "Herbert"] 1965 3
      none (some "hard") (by decide) (by decide) (by decide) (by decide)
      (by decide)⟩

/-!
## C4, C5, C6, C3 — the XML importer
-/

lemma dget_dset_self (d : Dict) (k : String) (v : Val) :
    dget (dset d k v) k = some v := by
  induction d with
  | nil => simp [dset, dget]
  | cons p d ih =>
    by_cases hp : p.1 = k
    · simp [dset, dget, hp]
    · simp [dset, dget, hp, ih]

lemma dget_dset_ne (d : Dict) (k : String) (v : Val) (f : String)
    (h : f ≠ k) : dget (dset d k v) f = dget d f := by
  have hk : ¬ k = f := fun he => h he.symm
  induction d with
  | nil => simp [dset, dget, hk]
  | cons p d ih =>
    by_cases hp : p.1 = k
    · have hpf : ¬ p.1 = f := fun he => hk (hp.symm.trans he)
      simp [dset, dget, hp, hpf, hk]
    · by_cases hpf : p.1 = f
      · simp [dset, dget, hp, hpf, h]
      · simp [dset, dget, hp, hpf, ih]

lemma dget_dupdate_ne (kvs : List (String × String)) (d : Dict) (f : String)
    (h : ∀ kv ∈ kvs, kv.1 ≠ f) : dget (dupdate d kvs) f = dget d f := by
  induction kvs generalizing d with
  | nil => rfl
  | cons kv kvs ih =>
    have h1 : kv.1 ≠ f := h kv (by simp)
    show dget (dupdate (dset d kv.1 (.str (some kv.2))) kvs) f = dget d f
    rw [ih (dset d kv.1 (.str (some kv.2))) (fun x hx => h x (by simp [hx]))]
    exact dget_dset_ne d kv.1 _ f (fun he => h1 he.symm)

/-- The texts of the `author` children, in document order. -/
def authorTexts (cs : List XmlSub) : List (Option String) :=
  (cs.filter (fun sc => sc.tag = "author")).map XmlSub.text

lemma procSubs_authors (cs : List XmlSub) :
    ∀ (r : Dict) (a : List (Option String)),
      (procSubs r a cs).2 = a ++ authorTexts cs := by
  induction cs with
  | nil => intro r a; simp [procSubs, authorTexts]
  | cons sc cs ih =>
    intro r a
    by_cases hsc : sc.tag = "author"
    · simp [procSubs, hsc, ih, authorTexts, List.filter_cons]
    · simp [procSubs, hsc, ih, authorTexts, List.filter_cons]

/-- The text of the last nested child with the given tag, when one exists:
assignments to `record[tag]` are last-write-wins. -/
def lastTagText (f : String) : List XmlSub → Option (Option String)
  | [] => none
  | sc :: cs =>
    match lastTagText f cs with
    | some t => some t
    | none => if sc.tag = f then some sc.text else none

lemma procSubs_record_lookup (f : String) (hf : f ≠ "author") :
    ∀ (cs : List XmlSub) (r : Dict) (a : List (Option String)),
      (∀ sc ∈ cs, ∀ kv ∈ sc.attrib, kv.1 ≠ f) →
      dget (procSubs r a cs).1 f =
        (match lastTagText f cs with
          | some t => some (.str t)
          | none => dget r f) := by
  intro cs
  induction cs with
  | nil => intro r a _; simp [procSubs, lastTagText]
  | cons sc cs ih =>
    intro r a hattr
    have hattr1 : ∀ kv ∈ sc.attrib, kv.1 ≠ f := hattr sc (by simp)
    have hattr2 : ∀ x ∈ cs, ∀ kv ∈ x.attrib, kv.1 ≠ f :=
      fun x hx => hattr x (by simp [hx])
    have hskip : ∀ d : Dict, dget (dupdate d sc.attrib) f = dget d f :=
      fun d => dget_dupdate_ne sc.attrib d f hattr1
    show dget (procSubs _ _ cs).1 f = _
    rw [ih _ _ hattr2]
    cases hlast : lastTagText f cs with
    | some t => simp [lastTagText, hlast]
    | none =>
      by_cases hsc : sc.tag = f
      · have hsa : ¬ sc.tag = "author" := by rw [hsc]; exact hf
        by_cases hat : sc.attrib.isEmpty <;>
          simp [lastTagText, hlast, hsc, hsa, hat, hskip, dget_dset_self, hf]
      · by_cases hsa : sc.tag = "author" <;> by_cases hat : sc.attrib.isEmpty <;>
          simp [lastTagText, hlast, hsc, hsa, hat, hskip, Ne.symm hf,
            dget_dset_ne r sc.tag (.str sc.text) f (Ne.symm hsc)]

/-- C6: for every imported book element, the candidate's `authors` field is
the list of its `author` children's texts in document order (duplicates
kept), stored after the loop so it overwrites anything else named
`authors`; and every other nested tag assigns the child's text under that
tag name, last write winning — so when the field is not touched by any
attribute, the candidate holds the text of the last child with that tag. -/
theorem candidate_authors_and_fields (child : XmlBookElem) (f : String)
    (t : Option String) (hf : f ≠ "author") (hfa : f ≠ "authors")
    (hattr : ∀ sc ∈ child.children, ∀ kv ∈ sc.attrib, kv.1 ≠ f)
    (hlast : lastTagText f child.children = some t) :
    dget (candidate child) "authors" = some (.lst (authorTexts child.children))
    ∧ dget (candidate child) f = some (.str t) := by
  have hr := procSubs_authors child.children
    (if child.attrib.isEmpty then [] else dupdate [] child.attrib) []
  constructor
  · simp only [candidate]
    rw [dget_dset_self, hr]
    simp
  · simp only [candidate]
    rw [dget_dset_ne _ "authors" _ f hfa]
    rw [procSubs_record_lookup f hf child.children _ [] hattr, hlast]

/-- Closed instance of `candidate_authors_and_fields`: two `title` children
(the later text wins) and two `author` children (both collected in order). -/
theorem candidate_authors_and_fields_witness :
    (("title" : String) ≠ "author" ∧ ("title" : String) ≠ "authors"
      ∧ (∀ sc ∈ ([⟨"author", [], some "A"⟩, ⟨"title", [], some "T1"⟩,
          ⟨"title", [], some "T2"⟩, ⟨"author", [], some "B"⟩] : List XmlSub),
          ∀ kv ∈ sc.attrib, kv.1 ≠ "title")
      ∧ lastTagText "title" [⟨"author", [], some "A"⟩, ⟨"title", [], some "T1"⟩,
          ⟨"title", [], some "T2"⟩, ⟨"author", [], some "B"⟩] = some (some "T2"))
    ∧ dget (candidate ⟨"book", [("price", "9")],
        [⟨"author", [], some "A"⟩, ⟨"title", [], some "T1"⟩,
         ⟨"title", [], some "T2"⟩, ⟨"author", [], some "B"⟩]⟩) "authors" =
      some (.lst (authorTexts [⟨"author", [], some "A"⟩, ⟨"title", [], some "T1"⟩,
        ⟨"title", [], some "T2"⟩, ⟨"author", [], some "B"⟩]))
    ∧ dget (candidate ⟨"book", [("price", "9")],
        [⟨"author", [], some "A"⟩, ⟨"title", [], some "T1"⟩,
         ⟨"title", [], some "T2"⟩, ⟨"author", [], some "B"⟩]⟩) "title" =
      some (.str (some "T2")) := by
  refine ⟨⟨by decide, by decide, by decide, by decide⟩, ?_, ?_⟩
  · exact (candidate_authors_and_fields _ "title" (some "T2") (by decide)
      (by decide) (by decide) (by decide)).1
  · exact (candidate_authors_and_fields _ "title" (some "T2") (by decide)
      (by decide) (by decide) (by decide)).2

/-- C5 counterexample: a field supplied both as an attribute on the book
element (`year="2000"`) and as a nested text element (`<year>1999</year>`)
ends up with the nested text, not the attribute value — the attribute does
not take precedence there. -/
theorem candidate_attribute_precedence_cex :
    candidate ⟨"book", [("year", "2000")], [⟨"year", [], some "1999"⟩]⟩ =
      [("year", .str (some "1999")), ("authors", .lst [])]
    ∧ dget (candidate ⟨"book", [("year", "2000")], [⟨"year", [], some "1999"⟩]⟩)
        "year" ≠ some (.str (some "2000")) := by
  exact ⟨by decide, by decide⟩

/-- C5 amended: an attribute on a *nested child* element overrides the
values already set when that child is processed — including that child's
own text and any book-element attribute — but an attribute on the *book
element itself* only seeds the mapping and is overwritten by a nested text
element of the same name. -/
theorem candidate_attribute_precedence_amended (tg f a v : String)
    (sct : Option String) (hf : f ≠ "author") (hfa : f ≠ "authors") :
    dget (candidate ⟨tg, [(f, a)], [⟨f, [(f, v)], sct⟩]⟩) f =
      some (.str (some v))
    ∧ dget (candidate ⟨tg, [(f, a)], [⟨f, [], sct⟩]⟩) f = some (.str sct) := by
  constructor
  · simp [candidate, procSubs, dupdate, dset, dget, hf, hfa, Ne.symm hfa]
  · simp [candidate, procSubs, dupdate, dset, dget, hf, hfa, Ne.symm hfa]

/-- Closed instance of `candidate_attribute_precedence_amended`. -/
theorem candidate_attribute_precedence_amended_witness :
    (("year" : String) ≠ "author" ∧ ("year" : String) ≠ "authors")
    ∧ dget (candidate ⟨"book", [("year", "2000")],
        [⟨"year", [("year", "7")], some "1999"⟩]⟩) "year" =
      some (.str (some "7"))
    ∧ dget (candidate ⟨"book", [("year", "2000")],
        [⟨"year", [], some "1999"⟩]⟩) "year" = some (.str (some "1999")) :=
  ⟨⟨by decide, by decide⟩,
    candidate_attribute_precedence_amended "book" "year" "2000" "7"
      (some "1999") (by decide) (by decide)⟩

/-- C4 counterexample: a file that exists but cannot be opened (an
`OSError` other than `FileNotFoundError`, e.g. a permission error) is not
wrapped into `WrongXmlPathError` — the `except FileNotFoundError` clause
on line 57 lets it propagate — so "cannot be opened" does not imply
`InvalidSource`. -/
theorem import_invalid_source_cex :
    books_from_xml ⟨[]⟩ .osError = (⟨[]⟩, some .osError)
    ∧ (some PyErr.osError : Option PyErr) ≠ some .wrongXmlPath :=
  ⟨rfl, by decide⟩

/-- C4 amended: when the file does not exist, `books_from_xml` signals
`WrongXmlPathError` before any parsing is attempted and before any record
is created, leaving the store unchanged; an open failure for any other
reason propagates as that failure (also with the store unchanged) instead
of being wrapped as `InvalidSource`. -/
theorem import_invalid_source_amended (st : LibState) :
    books_from_xml st .notFound = (st, some .wrongXmlPath)
    ∧ books_from_xml st .osError = (st, some .osError) :=
  ⟨rfl, rfl⟩

lemma add_book_raw_shape (st : LibState) (vcat vtit vaut : Val) (y : Int)
    (p : Rat) (vl vc : Option Val) :
    (add_book_raw st vcat vtit vaut y p vl vc).1 = st
    ∨ ((add_book_raw st vcat vtit vaut y p vl vc).2 = .ok (newId st)
        ∧ ∃ b, (add_book_raw st vcat vtit vaut y p vl vc).1.books =
            st.books ++ [b]) := by
  unfold add_book_raw
  split
  · exact .inl rfl
  · split
    · exact .inl rfl
    · split
      · exact .inr ⟨rfl, _, rfl⟩
      · exact .inl rfl

lemma importRecord_shape (st : LibState) (r : Dict) :
    (importRecord st r).1 = st
    ∨ ((importRecord st r).2 = none
        ∧ ∃ b, (importRecord st r).1.books = st.books ++ [b]) := by
  cases heq : importArgs r with
  | error e =>
    left
    unfold importRecord
    rw [heq]
  | ok vals =>
    obtain ⟨vcat, vtit, vaut, y, p, vl, vc⟩ := vals
    have hkey : importRecord st r =
        (match (add_book_raw st vcat vtit vaut y p vl vc).2 with
          | .ok _ => ((add_book_raw st vcat vtit vaut y p vl vc).1, none)
          | .error e => ((add_book_raw st vcat vtit vaut y p vl vc).1, some e)) := by
      unfold importRecord
      rw [heq]
    rcases add_book_raw_shape st vcat vtit vaut y p vl vc with h | ⟨h2, b, hb⟩
    · left
      rw [hkey]
      cases h2 : (add_book_raw st vcat vtit vaut y p vl vc).2 <;> exact h
    · right
      rw [hkey, h2]
      exact ⟨rfl, b, hb⟩

lemma importRecord_error_state (st : LibState) (r : Dict) (e : PyErr)
    (h : (importRecord st r).2 = some e) : (importRecord st r).1 = st := by
  rcases importRecord_shape st r with h1 | ⟨h2, _⟩
  · exact h1
  · rw [h2] at h
    exact absurd h (by simp)

lemma importRecord_extends (st : LibState) (r : Dict) :
    ∃ new, (importRecord st r).1.books = st.books ++ new := by
  rcases importRecord_shape st r with h | ⟨_, b, hb⟩
  · exact ⟨[], by rw [h]; simp⟩
  · exact ⟨[b], hb⟩

lemma importRecords_append_eq (pre rest : List Dict) : ∀ st : LibState,
    importRecords st (pre ++ rest) =
      (match importRecords st pre with
        | (st1, none) => importRecords st1 rest
        | (st1, some e) => (st1, some e)) := by
  induction pre with
  | nil => intro st; rfl
  | cons r pre ih =>
    intro st
    show (match importRecord st r with
      | (st2, none) => importRecords st2 (pre ++ rest)
      | (st2, some e) => (st2, some e)) = _
    cases hio : importRecord st r with
    | mk st2 o =>
      cases o with
      | none => simp [importRecords, hio, ih st2]
      | some e => simp [importRecords, hio]

lemma importRecords_extends (rs : List Dict) : ∀ st : LibState,
    ∃ new, (importRecords st rs).1.books = st.books ++ new := by
  induction rs with
  | nil => intro st; exact ⟨[], by simp [importRecords]⟩
  | cons r rs ih =>
    intro st
    rcases importRecord_extends st r with ⟨new1, h1⟩
    cases hio : importRecord st r with
    | mk st2 o =>
      rw [hio] at h1
      have hkey : importRecords st (r :: rs) =
          (match importRecord st r with
            | (st2, none) => importRecords st2 rs
            | (st2, some e) => (st2, some e)) := rfl
      cases o with
      | none =>
        rcases ih st2 with ⟨new2, h2⟩
        refine ⟨new1 ++ new2, ?_⟩
        rw [hkey, hio]
        show (importRecords st2 rs).1.books = st.books ++ (new1 ++ new2)
        rw [h2, h1, List.append_assoc]
      | some e =>
        refine ⟨new1, ?_⟩
        rw [hkey, hio]
        exact h1

/-- C3: when the candidates of an import split as `pre ++ r :: suf` with
every candidate of `pre` succeeding (reaching store `st₁`) and `r` failing
with some error — `DuplicatedTitle`, an unparseable `year`, an unparseable
`price`, or any other exception of the submission — the whole
`books_from_xml` call fails with exactly that error, the store stays at
`st₁` (the records created for the earlier candidates remain persisted, no
rollback), and `st₁` is the initial store plus only appended records. -/
theorem import_partial_failure (st st₁ : LibState) (root : XmlRoot)
    (pre suf : List Dict) (r : Dict) (e : PyErr)
    (hsplit : root.children.map candidate = pre ++ r :: suf)
    (hpre : importRecords st pre = (st₁, none))
    (herr : (importRecord st₁ r).2 = some e) :
    books_from_xml st (.found root) = (st₁, some e)
    ∧ ∃ new, st₁.books = st.books ++ new := by
  constructor
  · show importRecords st (root.children.map candidate) = _
    rw [hsplit, importRecords_append_eq pre (r :: suf) st, hpre]
    show importRecords st₁ (r :: suf) = (st₁, some e)
    have h1 : (importRecord st₁ r).1 = st₁ := importRecord_error_state st₁ r e herr
    cases hio : importRecord st₁ r with
    | mk st2 o =>
      rw [hio] at herr h1
      simp only at herr h1
      subst herr h1
      simp [importRecords, hio]
  · have hext := importRecords_extends pre st
    rw [hpre] at hext
    exact hext

/-- A two-book XML document whose first candidate is well-formed. -/
def xmlDemo0 : XmlBookElem :=
  ⟨"book", [], [⟨"title", [], some "b0"⟩, ⟨"category", [], some "c"⟩,
    ⟨"year", [], some "1"⟩, ⟨"price", [], some "3"⟩,
    ⟨"author", [], some "A"⟩]⟩

/-- The second candidate of the demo document: its `year` text `19x9` is
not parseable as an integer. -/
def xmlDemo1 : XmlBookElem :=
  ⟨"book", [], [⟨"title", [], some "b1"⟩, ⟨"category", [], some "c"⟩,
    ⟨"year", [], some "19x9"⟩, ⟨"price", [], some "3"⟩,
    ⟨"author", [], some "B"⟩]⟩

/-- The store after the first demo candidate has been committed. -/
def stDemo1 : LibState := ⟨[⟨1, "c", "b0", "A", 1, 3, none, none⟩]⟩

/-- Closed instance of `import_partial_failure`: the second candidate's
`year` fails to parse, the import fails with `ValueError`, and the record
created for the first candidate remains persisted. -/
theorem import_partial_failure_witness :
    ((XmlRoot.mk [xmlDemo0, xmlDemo1]).children.map candidate =
        [candidate xmlDemo0] ++ candidate xmlDemo1 :: []
      ∧ importRecords ⟨[]⟩ [candidate xmlDemo0] = (stDemo1, none)
      ∧ (importRecord stDemo1 (candidate xmlDemo1)).2 = some .valueError)
    ∧ books_from_xml ⟨[]⟩ (.found ⟨[xmlDemo0, xmlDemo1]⟩) =
        (stDemo1, some .valueError)
    ∧ ∃ new, stDemo1.books = (⟨[]⟩ : LibState).books ++ new :=
  ⟨⟨by decide, by decide, by decide⟩,
    import_partial_failure ⟨[]⟩ stDemo1 ⟨[xmlDemo0, xmlDemo1]⟩
      [candidate xmlDemo0] [] (candidate xmlDemo1) .valueError
      (by decide) (by decide) (by decide)⟩
